import Mathlib

/-!
Verification of petrokit's nodal solver and multiphase pressure-gradient
engine against its specification.

The nodal intersection routine (`petrokit/nodal.py`, `_find_intersection`)
works on sampled curves; floating-point non-finiteness (NaN/inf) of each
stored number is modelled by a Boolean flag carried next to an exact
rational value, and the arithmetic of the routine itself is exact rational
arithmetic.  The multiphase correlations (`petrokit/multiphase.py`,
`petrokit/multiphase_hb.py`, `petrokit/vlp.py`) are embedded over the real
numbers; Python exceptions become `Option.none`.
-/

namespace Petrokit

/-- One entry of the common rate grid: the rate `q`, the inflow value `y1`,
the outflow value `y2`, and for each of the three numbers whether the
floating-point original was finite (`np.isfinite`). -/
structure Sample where
  q : ℚ
  y1 : ℚ
  y2 : ℚ
  qFin : Bool
  y1Fin : Bool
  y2Fin : Bool
deriving DecidableEq, Repr

instance : Inhabited Sample := ⟨⟨0, 0, 0, false, false, false⟩⟩

/-- `diff = y1 - y2` of `_find_intersection`. -/
def dval (s : Sample) : ℚ := s.y1 - s.y2

/-- The finiteness mask of `_find_intersection`: an entry survives when the
rate and both curve values are finite (the difference of two finite reals is
finite). -/
def sampleFinite (s : Sample) : Bool := s.qFin && s.y1Fin && s.y2Fin

/-- `q_grid[finite]`, `diff[finite]`, … : the filtered samples. -/
def finiteSamples (samples : List Sample) : List Sample :=
  samples.filter sampleFinite

/-- `np.isclose(d, 0.0, atol=1e-12)` with second argument `0`:
`|d| ≤ 1e-12`. -/
def nearZero (s : Sample) : Bool := decide (|dval s| ≤ 1 / 1000000000000)

/-- `np.sign`. -/
def sgn (x : ℚ) : ℚ := if 0 < x then 1 else if x < 0 then -1 else 0

/-- First adjacent pair whose `diff` signs have negative product
(`sign[:-1] * sign[1:] < 0`). -/
def findSignChange : List Sample → Option (Sample × Sample)
  | a :: b :: rest =>
    if sgn (dval a) * sgn (dval b) < 0 then some (a, b)
    else findSignChange (b :: rest)
  | _ => none

/-- Linear interpolation of the crossing: `t = d1/(d1-d2)`,
`q_op = q1 + t*(q2-q1)`, `y1_op = y1[i] + t*(y1[i+1]-y1[i])`. -/
def interpolate (a b : Sample) : ℚ × ℚ :=
  (a.q + dval a / (dval a - dval b) * (b.q - a.q),
   a.y1 + dval a / (dval a - dval b) * (b.y1 - a.y1))

/-- `np.argmin(np.abs(d))`: the first sample attaining the minimum of
`|diff|` among `best :: l`. -/
def argminAbs (best : Sample) : List Sample → Sample
  | [] => best
  | s :: rest =>
    if |dval s| < |dval best| then argminAbs s rest else argminAbs best rest

/-- Body of `_find_intersection` on the (nonempty) filtered samples,
in the source's case order: first near-zero entry, else first sign change
(interpolated), else all-negative (first entry), else all-positive (last
entry), else the argmin of `|diff|`. -/
def intersectFiltered (s0 : Sample) (rest : List Sample) : ℚ × ℚ :=
  match (s0 :: rest).find? nearZero with
  | some s => (s.q, s.y1)
  | none =>
    match findSignChange (s0 :: rest) with
    | some (a, b) => interpolate a b
    | none =>
      if (s0 :: rest).all (fun s => decide (dval s < 0)) then (s0.q, s0.y1)
      else if (s0 :: rest).all (fun s => decide (0 < dval s)) then
        ((( s0 :: rest).getLast (List.cons_ne_nil s0 rest)).q,
         (((s0 :: rest)).getLast (List.cons_ne_nil s0 rest)).y1)
      else
        ((argminAbs s0 rest).q, (argminAbs s0 rest).y1)

/-- `_find_intersection`: `none` models the `ValueError` raised when no
filtered entry remains. -/
def findIntersection (samples : List Sample) : Option (ℚ × ℚ) :=
  match finiteSamples samples with
  | [] => none
  | s0 :: rest => some (intersectFiltered s0 rest)

/-! ## The multiphase pressure-gradient engine (`petrokit/multiphase.py`,
`petrokit/multiphase_hb.py`), embedded over the real numbers.  A Python
`ValueError`/`raise` is `none`. -/

noncomputable section

/-- `g = 32.174 ft/s²` (also used as `g_c`). -/
def gGrav : ℝ := 32.174

/-- `_cp_to_lbm_ft_s`. -/
def cpToLbmFtS (mu : ℝ) : ℝ := mu * 0.000671969

/-- `math.radians`. -/
def radians (x : ℝ) : ℝ := x * Real.pi / 180

/-- `_darcy_friction_factor_swamee_jain` of `petrokit/multiphase.py`. -/
def darcyBB (re rr : ℝ) : Option ℝ :=
  if re ≤ 0 then none
  else if re < 2000 then some (64 / re)
  else some (0.25 / Real.logb 10 (rr / 3.7 + 5.74 / re ^ (0.9 : ℝ)) ^ (2 : ℕ))

/-- `_darcy_friction_factor_swamee_jain` of `petrokit/multiphase_hb.py`
(it additionally floors the relative roughness at 0). -/
def darcyHB (re rr : ℝ) : Option ℝ :=
  if re ≤ 0 then none
  else if re < 2000 then some (64 / re)
  else some (0.25 / Real.logb 10 (max rr 0 / 3.7 + 5.74 / re ^ (0.9 : ℝ)) ^ (2 : ℕ))

/-- The friction-factor rule as the specification words it: laminar `64/Re`
when `Re < 2000`, else the Swamee–Jain explicit correlation
`0.25 / (log10(rr/3.7 + 5.74/Re^0.9))²`; error when `Re ≤ 0`. -/
def darcySpecRule (re rr : ℝ) : Option ℝ :=
  if re ≤ 0 then none
  else if re < 2000 then some (64 / re)
  else some (0.25 / Real.logb 10 (rr / 3.7 + 5.74 / re ^ (0.9 : ℝ)) ^ (2 : ℕ))

/-- The Beggs–Brill flow-regime enumeration. -/
inductive FlowRegime where
  | segregated
  | transition
  | intermittent
  | distributed
deriving DecidableEq, Repr

/-- `beggs_brill_boundaries`: `(L1, L2, L3, L4)`, raising unless
`0 < c_l ≤ 1`. -/
def boundaries (c_l : ℝ) : Option (ℝ × ℝ × ℝ × ℝ) :=
  if 0 < c_l ∧ c_l ≤ 1 then
    some (316 * c_l ^ (0.302 : ℝ), 0.0009252 * c_l ^ (-2.4684 : ℝ),
          0.1 * c_l ^ (-1.4516 : ℝ), 0.5 * c_l ^ (-6.738 : ℝ))
  else none

/-- `c_l_eff = max(min(c_l, 1.0), 1e-12)` with `c_l = v_sl/v_m`. -/
def noSlipClamped (v_sl v_sg : ℝ) : ℝ :=
  max (min (v_sl / (v_sl + v_sg)) 1) 1e-12

/-- The mixture Froude number `v_m²/(g·d)`. -/
def froude (v_sl v_sg d_ft : ℝ) : ℝ := (v_sl + v_sg) ^ (2 : ℕ) / (gGrav * d_ft)

/-- `beggs_brill_flow_regime`: returns `(regime, c_l_eff, fr)`. -/
def flowRegime (v_sl v_sg d_ft : ℝ) : Option (FlowRegime × ℝ × ℝ) :=
  if d_ft ≤ 0 then none
  else if v_sl < 0 ∨ v_sg < 0 then none
  else if v_sl + v_sg ≤ 0 then none
  else
    match boundaries (noSlipClamped v_sl v_sg) with
    | none => none
    | some (L1, L2, L3, L4) =>
      some
        (if (noSlipClamped v_sl v_sg < 0.01 ∧ froude v_sl v_sg d_ft < L1) ∨
            (0.01 ≤ noSlipClamped v_sl v_sg ∧ froude v_sl v_sg d_ft < L2) then
           FlowRegime.segregated
         else if L2 < froude v_sl v_sg d_ft ∧ froude v_sl v_sg d_ft < L3 then
           FlowRegime.transition
         else if (0.01 ≤ noSlipClamped v_sl v_sg ∧ noSlipClamped v_sl v_sg < 0.4 ∧
                  L3 < froude v_sl v_sg d_ft ∧ froude v_sl v_sg d_ft ≤ L1) ∨
                 (0.4 ≤ noSlipClamped v_sl v_sg ∧
                  L3 < froude v_sl v_sg d_ft ∧ froude v_sl v_sg d_ft ≤ L4) then
           FlowRegime.intermittent
         else FlowRegime.distributed,
         noSlipClamped v_sl v_sg, froude v_sl v_sg d_ft)

/-- The regime decision table exactly as the specification words it:
segregated if (`c_l<0.01` and `Fr<L1`) or (`c_l≥0.01` and `Fr<L2`); else
transition if `L2<Fr<L3`; else intermittent if (`0.01≤c_l<0.4` and
`L3<Fr≤L1`) or (`c_l≥0.4` and `L3<Fr≤L4`); else distributed — ties resolve
to the first matching clause. -/
def specRegime (c_l fr L1 L2 L3 L4 : ℝ) : FlowRegime :=
  if (c_l < 0.01 ∧ fr < L1) ∨ (0.01 ≤ c_l ∧ fr < L2) then FlowRegime.segregated
  else if L2 < fr ∧ fr < L3 then FlowRegime.transition
  else if (0.01 ≤ c_l ∧ c_l < 0.4 ∧ L3 < fr ∧ fr ≤ L1) ∨
          (0.4 ≤ c_l ∧ L3 < fr ∧ fr ≤ L4) then FlowRegime.intermittent
  else FlowRegime.distributed

/-- Coefficient `a` of `E_L(0) = a·c_l^b/Fr^c` (`_holdup_horizontal`);
transition falls into the `else` (distributed) row there. -/
def coeffA : FlowRegime → ℝ
  | FlowRegime.segregated => 0.98
  | FlowRegime.intermittent => 0.845
  | _ => 1.065

/-- Coefficient `b` of `E_L(0)`. -/
def coeffB : FlowRegime → ℝ
  | FlowRegime.segregated => 0.4846
  | FlowRegime.intermittent => 0.5351
  | _ => 0.5824

/-- Coefficient `c` of `E_L(0)`. -/
def coeffC : FlowRegime → ℝ
  | FlowRegime.segregated => 0.0868
  | FlowRegime.intermittent => 0.0173
  | _ => 0.0609

/-- Horizontal holdup `max(a·c_l^b/Fr^c, c_l)` (the `E_L(0) ≥ C_L`
constraint). -/
def holdupHorizontal0 (c_l fr : ℝ) (r : FlowRegime) : ℝ :=
  max (coeffA r * c_l ^ coeffB r / fr ^ coeffC r) c_l

/-- `_holdup_horizontal`, raising when `fr ≤ 0`. -/
def holdupHorizontal (c_l fr : ℝ) (r : FlowRegime) : Option ℝ :=
  if fr ≤ 0 then none else some (holdupHorizontal0 c_l fr r)

/-- `_beta_inclination`: `β = (1-C_L)·ln(max(d·C_L^e·N_LV^f·Fr^g, 1e-30))`,
with the regime/direction coefficient table; 0 when `|θ| < 1e-12`, uphill
distributed, or (in that table) uphill transition. -/
def betaInclination (c_l fr n_lv theta_deg : ℝ) (r : FlowRegime) : ℝ :=
  if |theta_deg| < 1e-12 then 0
  else if 0 < theta_deg then
    match r with
    | FlowRegime.segregated =>
      (1 - c_l) *
        Real.log (max (0.011 * c_l ^ (-3.768 : ℝ) * n_lv ^ (3.539 : ℝ) *
          fr ^ (-1.614 : ℝ)) 1e-30)
    | FlowRegime.intermittent =>
      (1 - c_l) *
        Real.log (max (2.96 * c_l ^ (0.305 : ℝ) * n_lv ^ (-0.4473 : ℝ) *
          fr ^ (0.0978 : ℝ)) 1e-30)
    | _ => 0
  else
    (1 - c_l) *
      Real.log (max (4.7 * c_l ^ (-0.3692 : ℝ) * n_lv ^ (0.1244 : ℝ) *
        fr ^ (-0.5056 : ℝ)) 1e-30)

/-- `s = sin(radians(1.8·θ))`. -/
def sin18 (theta_deg : ℝ) : ℝ := Real.sin (radians (1.8 * theta_deg))

/-- `B(θ) = 1 + β·(s - s³/3)`. -/
def bThetaFactor (beta s : ℝ) : ℝ := 1 + beta * (s - (1 / 3) * s ^ (3 : ℕ))

/-- A single-regime inclination-corrected and clamped holdup,
`min(max(E_L(0)·B(θ), c_l), 1)`, as computed for the main path and for the
two branches of the transition blend. -/
def elBranch (c_l fr n_lv theta_deg : ℝ) (r : FlowRegime) : ℝ :=
  min (max (holdupHorizontal0 c_l fr r *
    bThetaFactor (betaInclination c_l fr n_lv theta_deg r) (sin18 theta_deg)) c_l) 1

/-- `A = clamp((L3-Fr)/(L3-L2), 0, 1)`. -/
def transitionWeight (fr L2 L3 : ℝ) : ℝ := min (max ((L3 - fr) / (L3 - L2)) 0) 1

/-- The transition-regime holdup: clamped blend
`A·el_seg + (1-A)·el_int`. -/
def transitionBlend (c_l fr n_lv theta_deg L2 L3 : ℝ) : ℝ :=
  min (max (transitionWeight fr L2 L3 * elBranch c_l fr n_lv theta_deg FlowRegime.segregated +
    (1 - transitionWeight fr L2 L3) * elBranch c_l fr n_lv theta_deg FlowRegime.intermittent)
    c_l) 1

/-- `N_LV = 1.938·v_sl·(ρ_l/(g·σ))^0.25`. -/
def nLV (v_sl rho_l sigma : ℝ) : ℝ :=
  1.938 * v_sl * (rho_l / (gGrav * sigma)) ^ (0.25 : ℝ)

/-- `beggs_brill_liquid_holdup`: returns `(E_L(θ), regime)`. -/
def liquidHoldup (v_sl v_sg d_ft theta_deg rho_l sigma : ℝ) :
    Option (ℝ × FlowRegime) :=
  if rho_l ≤ 0 then none
  else if sigma ≤ 0 then none
  else
    match flowRegime v_sl v_sg d_ft with
    | none => none
    | some (r, c_l, fr) =>
      match holdupHorizontal c_l fr r with
      | none => none
      | some el0 =>
        if r ≠ FlowRegime.transition then
          some (min (max (el0 *
            bThetaFactor (betaInclination c_l fr (nLV v_sl rho_l sigma) theta_deg r)
              (sin18 theta_deg)) c_l) 1, r)
        else
          match boundaries c_l with
          | none => none
          | some (_, L2, L3, _) =>
            some (transitionBlend c_l fr (nLV v_sl rho_l sigma) theta_deg L2 L3,
              FlowRegime.transition)

/-- `BeggsBrillResult`. -/
structure BBResult where
  dpdz : ℝ
  holdup : ℝ
  regime : FlowRegime
  ftp : ℝ
  rhoM : ℝ
  rhoNs : ℝ
  reNs : ℝ

/-- The `S` exponent of the two-phase friction multiplier, computed from
`y = c_l/holdup²` after the `max(y, 1e-12)` floor: `ln(2.2y-1.2)` when
`1 < y < 1.2`, else `ln y / (-0.0523 + 3.182·ln y - 0.8725·ln²y +
0.01853·ln⁴y)` with the denominator floored away from zero,
sign-preserving. -/
def sCorr (y0 : ℝ) : ℝ :=
  let y := max y0 1e-12
  if 1 < y ∧ y < 1.2 then Real.log (2.2 * y - 1.2)
  else
    Real.log y /
      (if 1e-12 < |(-0.0523 : ℝ) + 3.182 * Real.log y - 0.8725 * Real.log y ^ (2 : ℕ) +
          0.01853 * Real.log y ^ (4 : ℕ)| then
         -0.0523 + 3.182 * Real.log y - 0.8725 * Real.log y ^ (2 : ℕ) +
           0.01853 * Real.log y ^ (4 : ℕ)
       else if 0 ≤ (-0.0523 : ℝ) + 3.182 * Real.log y - 0.8725 * Real.log y ^ (2 : ℕ) +
          0.01853 * Real.log y ^ (4 : ℕ) then 1e-12
       else -1e-12)

/-- The raw acceleration-correction factor `E_k`: zero without an absolute
pressure, else `ρ_m·v_m·v_sg/(g_c·p)`. -/
def ekRaw (p : Option ℝ) (rhoM v_m v_sg : ℝ) : ℝ :=
  match p with
  | none => 0
  | some pp => rhoM * v_m * v_sg / (gGrav * pp)

/-- `min(max(ek, 0.0), 0.95)`. -/
def ekClamp (x : ℝ) : ℝ := min (max x 0) 0.95

/-- Whether the optional absolute pressure fails `p_psia > 0`. -/
def pInvalid : Option ℝ → Prop
  | none => False
  | some pp => pp ≤ 0

instance : DecidablePred pInvalid := by
  intro p
  cases p with
  | none => exact Decidable.isFalse (fun h => h)
  | some pp => exact (inferInstance : Decidable (pp ≤ 0))

/-- `beggs_brill_pressure_gradient` (diameter in inches). -/
def bbGradient (v_sl v_sg d_in theta_deg rho_l rho_g mu_l mu_g sigma eps_in : ℝ)
    (p_psia : Option ℝ) : Option BBResult :=
  if d_in ≤ 0 then none
  else if rho_l ≤ 0 ∨ rho_g ≤ 0 then none
  else if mu_l ≤ 0 ∨ mu_g ≤ 0 then none
  else if v_sl < 0 ∨ v_sg < 0 then none
  else if pInvalid p_psia then none
  else if v_sl + v_sg ≤ 0 then none
  else
    match liquidHoldup v_sl v_sg (d_in / 12) theta_deg rho_l sigma with
    | none => none
    | some (holdup, regime) =>
      let v_m := v_sl + v_sg
      let c_l := v_sl / v_m
      let rhoNs := rho_l * c_l + rho_g * (1 - c_l)
      let rhoM := rho_l * holdup + rho_g * (1 - holdup)
      let muNs := cpToLbmFtS mu_l * c_l + cpToLbmFtS mu_g * (1 - c_l)
      let reNs := rhoNs * v_m * (d_in / 12) / muNs
      match darcyBB reNs ((eps_in / 12) / (d_in / 12)) with
      | none => none
      | some fNs =>
        let ftp := fNs * Real.exp (sCorr (c_l / holdup ^ (2 : ℕ)))
        let ek := ekClamp (ekRaw p_psia rhoM v_m v_sg)
        some ⟨(2 * ftp * v_m ^ (2 : ℕ) * rhoNs / (144 * gGrav * (d_in / 12)) +
               rhoM * Real.sin (radians theta_deg) / 144) / (1 - ek),
              holdup, regime, ftp, rhoM, rhoNs, reNs⟩

/-- `HagedornBrownResult`. -/
structure HBResult where
  dpdz : ℝ
  holdup : ℝ
  rhoM : ℝ
  reM : ℝ
  fDarcy : ℝ

/-- `hagedorn_brown_holdup`: no-slip fraction inflated by
`k·sqrt(v_sg/(v_m + 1e-12))`, floored at the no-slip fraction and at
`1e-6`, capped at `0.999999`; all-liquid (`1.0`) at zero mixture
velocity. -/
def hbHoldup (v_sl v_sg k : ℝ) : Option ℝ :=
  if v_sl < 0 ∨ v_sg < 0 then none
  else if v_sl + v_sg ≤ 0 then some 1
  else
    let v_m := v_sl + v_sg
    let lam := v_sl / v_m
    some (min (max (max (lam * (1 + k * Real.sqrt (max (v_sg / (v_m + 1e-12)) 0)))
      lam) 1e-6) 0.999999)

/-- `hagedorn_brown_pressure_gradient` (diameter in inches). -/
def hbGradient (v_sl v_sg d_in theta_deg rho_l rho_g mu_l mu_g eps_in k : ℝ) :
    Option HBResult :=
  if d_in ≤ 0 then none
  else if rho_l ≤ 0 ∨ rho_g ≤ 0 then none
  else if mu_l ≤ 0 ∨ mu_g ≤ 0 then none
  else if theta_deg < -90 ∨ 90 < theta_deg then none
  else if v_sl < 0 ∨ v_sg < 0 then none
  else if v_sl + v_sg ≤ 0 then
    some ⟨rho_l * Real.sin (radians theta_deg) * (1 / 144), 1, rho_l, 0, 0⟩
  else
    match hbHoldup v_sl v_sg k with
    | none => none
    | some h =>
      let v_m := v_sl + v_sg
      let rhoM := h * rho_l + (1 - h) * rho_g
      let muMix := cpToLbmFtS (h * mu_l + (1 - h) * mu_g)
      let reM := rhoM * v_m * (d_in / 12) / max muMix 1e-12
      match darcyHB reM ((eps_in / 12) / (d_in / 12)) with
      | none => none
      | some f =>
        some ⟨f * (rhoM * v_m ^ (2 : ℕ)) / (2 * gGrav * (d_in / 12)) * (1 / 144) +
              rhoM * Real.sin (radians theta_deg) * (1 / 144), h, rhoM, reM, f⟩

/-! ## The outflow curve builders (`petrokit/vlp.py`), per grid point. -/

/-- `1 STB/d` in `ft³` per the builder's conversion. -/
def STBtoFT3 : ℝ := 5.615

/-- `1 MSCF` in `ft³`. -/
def MSCFtoFT3 : ℝ := 1000

/-- Seconds per day. -/
def DAYtoS : ℝ := 86400

/-- Pipe cross-sectional area `π·(d_ft/2)²` for a diameter in inches. -/
def pipeArea (d_in : ℝ) : ℝ := Real.pi * ((d_in / 12) / 2) ^ (2 : ℕ)

/-- One grid point of `vlp_curve_beggs_brill`: zero total flow takes the
static-column branch, otherwise the Beggs–Brill gradient is evaluated once
at that rate and multiplied by the full length. -/
def vlpPointBB (q qg L rho_l mu_l d_in theta_deg p_wh rho_g mu_g sigma eps_in : ℝ)
    (p_psia : Option ℝ) : Option ℝ :=
  if q * STBtoFT3 / DAYtoS ≤ 0 ∧ qg * MSCFtoFT3 / DAYtoS ≤ 0 then
    some (p_wh + rho_l * Real.sin (radians theta_deg) / 144 * L)
  else
    match bbGradient (q * STBtoFT3 / DAYtoS / pipeArea d_in)
        (qg * MSCFtoFT3 / DAYtoS / pipeArea d_in) d_in theta_deg rho_l rho_g
        mu_l mu_g sigma eps_in p_psia with
    | none => none
    | some res => some (p_wh + res.dpdz * L)

/-- One grid point of `vlp_curve_hagedorn_brown`. -/
def vlpPointHB (q qg L rho_l mu_l d_in theta_deg p_wh rho_g mu_g eps_in k : ℝ) :
    Option ℝ :=
  if q * STBtoFT3 / DAYtoS ≤ 0 ∧ qg * MSCFtoFT3 / DAYtoS ≤ 0 then
    some (p_wh + rho_l * Real.sin (radians theta_deg) / 144 * L)
  else
    match hbGradient (q * STBtoFT3 / DAYtoS / pipeArea d_in)
        (qg * MSCFtoFT3 / DAYtoS / pipeArea d_in) d_in theta_deg rho_l rho_g
        mu_l mu_g eps_in k with
    | none => none
    | some res => some (p_wh + res.dpdz * L)

end
/-! ### Supporting lemmas about the nodal solver's stages -/

lemma sgn_of_neg {x : ℚ} (h : x < 0) : sgn x = -1 := by
  simp [sgn, h, not_lt.mpr h.le, asymm h]

lemma sgn_of_pos {x : ℚ} (h : 0 < x) : sgn x = 1 := by
  simp [sgn, h]

lemma getD_mem_of_lt (l : List Sample) (i : ℕ) (h : i < l.length) :
    l.getD i default ∈ l := by
  rw [List.getD_eq_getElem l default h]
  exact List.getElem_mem h

lemma find?_first (p : Sample → Bool) :
    ∀ (l : List Sample) (i : ℕ), i < l.length →
      p (l.getD i default) = true →
      (∀ j, j < i → p (l.getD j default) = false) →
      l.find? p = some (l.getD i default)
  | [], i, hi, _, _ => absurd hi (by simp)
  | a :: t, 0, _, h, _ => by
    simpa using List.find?_cons_of_pos (p := p) t (by simpa using h)
  | a :: t, i + 1, hi, h, hprev => by
    have ha : p a = false := by simpa using hprev 0 (Nat.succ_pos i)
    rw [List.find?_cons_of_neg t (by simp [ha])]
    simpa using find?_first p t i (by simpa using hi) (by simpa using h)
      (fun j hj => by simpa using hprev (j + 1) (Nat.succ_lt_succ hj))

lemma findSignChange_first :
    ∀ (l : List Sample) (i : ℕ), i + 1 < l.length →
      sgn (dval (l.getD i default)) * sgn (dval (l.getD (i + 1) default)) < 0 →
      (∀ j, j < i →
        ¬ (sgn (dval (l.getD j default)) * sgn (dval (l.getD (j + 1) default)) < 0)) →
      findSignChange l = some (l.getD i default, l.getD (i + 1) default)
  | [], i, hi, _, _ => absurd hi (by simp)
  | [a], i, hi, _, _ => absurd hi (by simp)
  | a :: b :: t, 0, _, h, _ => by
    simp only [List.getD_cons_zero, List.getD_cons_succ] at h ⊢
    simp [findSignChange, h]
  | a :: b :: t, i + 1, hi, h, hprev => by
    have h0 : ¬ (sgn (dval a) * sgn (dval b) < 0) := by
      simpa using hprev 0 (Nat.succ_pos i)
    rw [findSignChange, if_neg h0]
    simpa using findSignChange_first (b :: t) i (by simpa using hi)
      (by simpa using h)
      (fun j hj => by simpa using hprev (j + 1) (Nat.succ_lt_succ hj))

lemma findSignChange_none :
    ∀ (l : List Sample),
      (∀ i, i + 1 < l.length →
        ¬ (sgn (dval (l.getD i default)) * sgn (dval (l.getD (i + 1) default)) < 0)) →
      findSignChange l = none
  | [], _ => by simp [findSignChange]
  | [a], _ => by simp [findSignChange]
  | a :: b :: t, h => by
    have h0 : ¬ (sgn (dval a) * sgn (dval b) < 0) := by
      simpa using h 0 (by simp)
    rw [findSignChange, if_neg h0]
    exact findSignChange_none (b :: t)
      (fun i hi => by simpa using h (i + 1) (by simpa using hi))

lemma findSignChange_none_of_allneg (l : List Sample)
    (h : ∀ s ∈ l, dval s < 0) : findSignChange l = none := by
  refine findSignChange_none l (fun i hi => ?_)
  rw [sgn_of_neg (h _ (getD_mem_of_lt l i (by omega))),
    sgn_of_neg (h _ (getD_mem_of_lt l (i + 1) hi))]
  norm_num

lemma findSignChange_none_of_allpos (l : List Sample)
    (h : ∀ s ∈ l, 0 < dval s) : findSignChange l = none := by
  refine findSignChange_none l (fun i hi => ?_)
  rw [sgn_of_pos (h _ (getD_mem_of_lt l i (by omega))),
    sgn_of_pos (h _ (getD_mem_of_lt l (i + 1) hi))]
  norm_num

lemma argminAbs_min :
    ∀ (l : List Sample) (best : Sample), ∀ t ∈ best :: l,
      |dval (argminAbs best l)| ≤ |dval t|
  | [], best, t, ht => by
    rcases List.mem_singleton.mp ht with rfl
    simp [argminAbs]
  | s :: r, best, t, ht => by
    rw [argminAbs]
    rcases List.mem_cons.mp ht with rfl | ht
    · by_cases hc : |dval s| < |dval t|
      · rw [if_pos hc]
        exact le_trans (argminAbs_min r s s (List.mem_cons_self s r)) hc.le
      · rw [if_neg hc]
        exact argminAbs_min r t t (List.mem_cons_self t r)
    · rcases List.mem_cons.mp ht with rfl | ht
      · by_cases hc : |dval t| < |dval best|
        · rw [if_pos hc]
          exact argminAbs_min r t t (List.mem_cons_self t r)
        · rw [if_neg hc]
          exact le_trans (argminAbs_min r best best (List.mem_cons_self best r))
            (not_lt.mp hc)
      · by_cases hc : |dval s| < |dval best|
        · rw [if_pos hc]
          exact argminAbs_min r s t (List.mem_cons_of_mem s ht)
        · rw [if_neg hc]
          exact argminAbs_min r best t (List.mem_cons_of_mem best ht)

lemma argminAbs_mem :
    ∀ (l : List Sample) (best : Sample), argminAbs best l ∈ best :: l
  | [], best => by simp [argminAbs]
  | s :: r, best => by
    rw [argminAbs]
    by_cases hc : |dval s| < |dval best|
    · rw [if_pos hc]
      have := argminAbs_mem r s
      rcases List.mem_cons.mp this with h | h
      · rw [h]; exact List.mem_cons_of_mem best (List.mem_cons_self s r)
      · exact List.mem_cons_of_mem best (List.mem_cons_of_mem s h)
    · rw [if_neg hc]
      have := argminAbs_mem r best
      rcases List.mem_cons.mp this with h | h
      · rw [h]; exact List.mem_cons_self best (s :: r)
      · exact List.mem_cons_of_mem best (List.mem_cons_of_mem s h)

lemma sorted_head_min (s0 : Sample) (rest : List Sample)
    (hs : (s0 :: rest).Pairwise (fun a b => a.q ≤ b.q)) :
    ∀ t ∈ s0 :: rest, s0.q ≤ t.q := by
  intro t ht
  rcases List.mem_cons.mp ht with rfl | ht
  · exact le_refl _
  · exact (List.pairwise_cons.mp hs).1 t ht

lemma sorted_last_max :
    ∀ (l : List Sample) (hne : l ≠ []),
      l.Pairwise (fun a b => a.q ≤ b.q) →
      ∀ t ∈ l, t.q ≤ (l.getLast hne).q
  | [], hne, _ => absurd rfl hne
  | [a], _, _ => by intro t ht; rcases List.mem_singleton.mp ht with rfl; simp
  | a :: b :: t, _, hs => by
    intro x hx
    rw [List.getLast_cons (List.cons_ne_nil b t)]
    rcases List.mem_cons.mp hx with rfl | hx
    · exact (List.pairwise_cons.mp hs).1 _
        (List.getLast_mem (List.cons_ne_nil b t))
    · exact sorted_last_max (b :: t) (List.cons_ne_nil b t)
        (List.pairwise_cons.mp hs).2 x hx

/-! ### Case lemmas for the body of `_find_intersection` -/

lemma intersect_zero (s0 : Sample) (rest : List Sample) (s : Sample)
    (h : (s0 :: rest).find? nearZero = some s) :
    intersectFiltered s0 rest = (s.q, s.y1) := by
  unfold intersectFiltered
  rw [h]

lemma intersect_signchange (s0 : Sample) (rest : List Sample) (a b : Sample)
    (h0 : (s0 :: rest).find? nearZero = none)
    (h1 : findSignChange (s0 :: rest) = some (a, b)) :
    intersectFiltered s0 rest = interpolate a b := by
  unfold intersectFiltered
  rw [h0, h1]

lemma intersect_allneg (s0 : Sample) (rest : List Sample)
    (h0 : (s0 :: rest).find? nearZero = none)
    (h1 : findSignChange (s0 :: rest) = none)
    (h2 : (s0 :: rest).all (fun s => decide (dval s < 0)) = true) :
    intersectFiltered s0 rest = (s0.q, s0.y1) := by
  unfold intersectFiltered
  rw [h0, h1, if_pos h2]

lemma intersect_allpos (s0 : Sample) (rest : List Sample)
    (h0 : (s0 :: rest).find? nearZero = none)
    (h1 : findSignChange (s0 :: rest) = none)
    (h2 : (s0 :: rest).all (fun s => decide (dval s < 0)) = false)
    (h3 : (s0 :: rest).all (fun s => decide (0 < dval s)) = true) :
    intersectFiltered s0 rest =
      (((s0 :: rest).getLast (List.cons_ne_nil s0 rest)).q,
       ((s0 :: rest).getLast (List.cons_ne_nil s0 rest)).y1) := by
  unfold intersectFiltered
  rw [h0, h1, if_neg (by simp [h2]), if_pos h3]

lemma intersect_argmin (s0 : Sample) (rest : List Sample)
    (h0 : (s0 :: rest).find? nearZero = none)
    (h1 : findSignChange (s0 :: rest) = none)
    (h2 : (s0 :: rest).all (fun s => decide (dval s < 0)) = false)
    (h3 : (s0 :: rest).all (fun s => decide (0 < dval s)) = false) :
    intersectFiltered s0 rest = ((argminAbs s0 rest).q, (argminAbs s0 rest).y1) := by
  unfold intersectFiltered
  rw [h0, h1, if_neg (by simp [h2]), if_neg (by simp [h3])]

lemma findIntersection_cons (samples : List Sample) (s0 : Sample)
    (rest : List Sample) (hfs : finiteSamples samples = s0 :: rest) :
    findIntersection samples = some (intersectFiltered s0 rest) := by
  unfold findIntersection
  rw [hfs]

lemma finiteSamples_ne_nil {samples : List Sample} {i : ℕ}
    (hi : i < (finiteSamples samples).length) :
    ∃ s0 rest, finiteSamples samples = s0 :: rest := by
  cases h : finiteSamples samples with
  | nil => rw [h] at hi; simp at hi
  | cons s0 rest => exact ⟨s0, rest, rfl⟩

/-- Claim C1: `_find_intersection`, on the finite-filtered samples of the two
curves, follows exactly the case precedence of the source: (1) the first
sample whose curve values agree within absolute tolerance `1e-12` wins;
(2) otherwise the first adjacent sign change of `inflow - outflow` wins,
with linear interpolation of both the rate and the inflow pressure;
(3) otherwise, `inflow < outflow` everywhere returns the lowest grid rate
and its inflow pressure; (4) `inflow > outflow` everywhere returns the
highest grid rate and its inflow pressure; (5) otherwise the grid point
minimizing `|inflow - outflow|` is returned. -/
theorem nodal_intersection_case_order (samples : List Sample)
    (hsorted : (finiteSamples samples).Pairwise (fun a b => a.q ≤ b.q)) :
    (∀ i, i < (finiteSamples samples).length →
      nearZero ((finiteSamples samples).getD i default) = true →
      (∀ j, j < i → nearZero ((finiteSamples samples).getD j default) = false) →
      findIntersection samples =
        some (((finiteSamples samples).getD i default).q,
              ((finiteSamples samples).getD i default).y1))
    ∧
    ((∀ s ∈ finiteSamples samples, nearZero s = false) →
     ∀ i, i + 1 < (finiteSamples samples).length →
      sgn (dval ((finiteSamples samples).getD i default)) *
        sgn (dval ((finiteSamples samples).getD (i + 1) default)) < 0 →
      (∀ j, j < i →
        ¬ (sgn (dval ((finiteSamples samples).getD j default)) *
            sgn (dval ((finiteSamples samples).getD (j + 1) default)) < 0)) →
      findIntersection samples =
        some (interpolate ((finiteSamples samples).getD i default)
              ((finiteSamples samples).getD (i + 1) default)))
    ∧
    (finiteSamples samples ≠ [] →
     (∀ s ∈ finiteSamples samples, nearZero s = false) →
     (∀ s ∈ finiteSamples samples, dval s < 0) →
     ∃ s ∈ finiteSamples samples, findIntersection samples = some (s.q, s.y1) ∧
       ∀ t ∈ finiteSamples samples, s.q ≤ t.q)
    ∧
    (finiteSamples samples ≠ [] →
     (∀ s ∈ finiteSamples samples, nearZero s = false) →
     (∀ s ∈ finiteSamples samples, 0 < dval s) →
     ∃ s ∈ finiteSamples samples, findIntersection samples = some (s.q, s.y1) ∧
       ∀ t ∈ finiteSamples samples, t.q ≤ s.q)
    ∧
    (finiteSamples samples ≠ [] →
     (∀ s ∈ finiteSamples samples, nearZero s = false) →
     (∀ i, i + 1 < (finiteSamples samples).length →
       ¬ (sgn (dval ((finiteSamples samples).getD i default)) *
           sgn (dval ((finiteSamples samples).getD (i + 1) default)) < 0)) →
     ¬ (∀ s ∈ finiteSamples samples, dval s < 0) →
     ¬ (∀ s ∈ finiteSamples samples, 0 < dval s) →
     ∃ s ∈ finiteSamples samples, findIntersection samples = some (s.q, s.y1) ∧
       ∀ t ∈ finiteSamples samples, |dval s| ≤ |dval t|) := by
  refine ⟨?_, ?_, ?_, ?_, ?_⟩
  · -- (1) first near-zero sample
    intro i hi hz hprev
    obtain ⟨s0, rest, hfs⟩ := finiteSamples_ne_nil hi
    have hfind := find?_first nearZero (finiteSamples samples) i hi hz hprev
    rw [hfs] at hfind
    rw [findIntersection_cons samples s0 rest hfs, intersect_zero s0 rest _ hfind, hfs]
  · -- (2) first sign change, interpolated
    intro hz i hi hsc hprev
    obtain ⟨s0, rest, hfs⟩ := finiteSamples_ne_nil (Nat.lt_of_succ_lt hi)
    have h0 : (s0 :: rest).find? nearZero = none := by
      rw [← hfs]
      exact List.find?_eq_none.mpr (fun x hx => by simp [hz x hx])
    have hfind := findSignChange_first (finiteSamples samples) i hi hsc hprev
    rw [hfs] at hfind
    rw [findIntersection_cons samples s0 rest hfs,
      intersect_signchange s0 rest _ _ h0 hfind, hfs]
  · -- (3) inflow below outflow everywhere: lowest grid rate
    intro hne hz hneg
    obtain ⟨s0, rest, hfs⟩ : ∃ s0 rest, finiteSamples samples = s0 :: rest := by
      cases h : finiteSamples samples with
      | nil => exact absurd h hne
      | cons s0 rest => exact ⟨s0, rest, rfl⟩
    rw [hfs] at hz hneg hsorted ⊢
    have h0 : (s0 :: rest).find? nearZero = none :=
      List.find?_eq_none.mpr (fun x hx => by simp [hz x hx])
    have h1 : findSignChange (s0 :: rest) = none :=
      findSignChange_none_of_allneg _ hneg
    have h2 : (s0 :: rest).all (fun s => decide (dval s < 0)) = true :=
      List.all_eq_true.mpr (fun s hs => decide_eq_true (hneg s hs))
    refine ⟨s0, List.mem_cons_self s0 rest, ?_, sorted_head_min s0 rest hsorted⟩
    rw [findIntersection_cons samples s0 rest hfs,
      intersect_allneg s0 rest h0 h1 h2]
  · -- (4) inflow above outflow everywhere: highest grid rate
    intro hne hz hpos
    obtain ⟨s0, rest, hfs⟩ : ∃ s0 rest, finiteSamples samples = s0 :: rest := by
      cases h : finiteSamples samples with
      | nil => exact absurd h hne
      | cons s0 rest => exact ⟨s0, rest, rfl⟩
    rw [hfs] at hz hpos hsorted ⊢
    have h0 : (s0 :: rest).find? nearZero = none :=
      List.find?_eq_none.mpr (fun x hx => by simp [hz x hx])
    have h1 : findSignChange (s0 :: rest) = none :=
      findSignChange_none_of_allpos _ hpos
    have h2 : (s0 :: rest).all (fun s => decide (dval s < 0)) = false := by
      refine Bool.eq_false_iff.mpr (fun hall => ?_)
      have := of_decide_eq_true (List.all_eq_true.mp hall s0 (List.mem_cons_self s0 rest))
      exact absurd (hpos s0 (List.mem_cons_self s0 rest)) (asymm this)
    have h3 : (s0 :: rest).all (fun s => decide (0 < dval s)) = true :=
      List.all_eq_true.mpr (fun s hs => decide_eq_true (hpos s hs))
    refine ⟨(s0 :: rest).getLast (List.cons_ne_nil s0 rest),
      List.getLast_mem _, ?_,
      sorted_last_max (s0 :: rest) (List.cons_ne_nil s0 rest) hsorted⟩
    rw [findIntersection_cons samples s0 rest hfs,
      intersect_allpos s0 rest h0 h1 h2 h3]
  · -- (5) fallback: minimize the absolute difference
    intro hne hz hnsc hnneg hnpos
    obtain ⟨s0, rest, hfs⟩ : ∃ s0 rest, finiteSamples samples = s0 :: rest := by
      cases h : finiteSamples samples with
      | nil => exact absurd h hne
      | cons s0 rest => exact ⟨s0, rest, rfl⟩
    rw [hfs] at hz hnsc hnneg hnpos ⊢
    have h0 : (s0 :: rest).find? nearZero = none :=
      List.find?_eq_none.mpr (fun x hx => by simp [hz x hx])
    have h1 : findSignChange (s0 :: rest) = none := findSignChange_none _ hnsc
    have h2 : (s0 :: rest).all (fun s => decide (dval s < 0)) = false := by
      refine Bool.eq_false_iff.mpr (fun hall => hnneg (fun s hs => ?_))
      exact of_decide_eq_true (List.all_eq_true.mp hall s hs)
    have h3 : (s0 :: rest).all (fun s => decide (0 < dval s)) = false := by
      refine Bool.eq_false_iff.mpr (fun hall => hnpos (fun s hs => ?_))
      exact of_decide_eq_true (List.all_eq_true.mp hall s hs)
    refine ⟨argminAbs s0 rest, argminAbs_mem rest s0, ?_,
      fun t ht => argminAbs_min rest s0 t ht⟩
    rw [findIntersection_cons samples s0 rest hfs,
      intersect_argmin s0 rest h0 h1 h2 h3]

/-- Witness for C1 at the one-sample grid `[(q=0, y1=0, y2=0, all finite)]`:
its single sample matches within tolerance, so case (1) fires. -/
theorem nodal_intersection_case_order_witness :
    findIntersection [⟨0, 0, 0, true, true, true⟩] =
      some (((finiteSamples [⟨0, 0, 0, true, true, true⟩]).getD 0 default).q,
            ((finiteSamples [⟨0, 0, 0, true, true, true⟩]).getD 0 default).y1) := by
  have hfs : finiteSamples [(⟨0, 0, 0, true, true, true⟩ : Sample)] =
      [⟨0, 0, 0, true, true, true⟩] := by
    simp [finiteSamples, sampleFinite]
  refine (nodal_intersection_case_order [⟨0, 0, 0, true, true, true⟩] ?_).1 0 ?_ ?_ ?_
  · rw [hfs]; simp
  · rw [hfs]; simp
  · rw [hfs]
    simp only [List.getD_cons_zero, nearZero, dval, decide_eq_true_eq]
    norm_num
  · intro j hj; omega

/-- Claim C9: `_find_intersection` errors exactly when no sample has its
rate and both curve values finite; with at least one fully finite sample it
returns a (rate, pressure) pair. -/
theorem nodal_intersection_error_iff (samples : List Sample) :
    (findIntersection samples = none ↔ ∀ s ∈ samples, ¬ sampleFinite s = true)
    ∧ ((∃ s ∈ samples, sampleFinite s = true) →
        ∃ qp : ℚ × ℚ, findIntersection samples = some qp) := by
  constructor
  · rw [show (findIntersection samples = none ↔ finiteSamples samples = []) from ?_]
    · exact List.filter_eq_nil_iff
    · unfold findIntersection
      cases h : finiteSamples samples <;> simp
  · intro ⟨s, hs, hfin⟩
    cases h : finiteSamples samples with
    | nil =>
      have : sampleFinite s = true → False := by
        have := List.filter_eq_nil_iff.mp h s hs
        simpa using this
      exact absurd hfin this
    | cons s0 rest => exact ⟨intersectFiltered s0 rest, findIntersection_cons samples s0 rest h⟩

/-! ### Supporting lemmas about the multiphase engine -/

lemma gGrav_pos : (0 : ℝ) < gGrav := by norm_num [gGrav]

lemma clamp_mem {x c : ℝ} (h : c ≤ 1) :
    c ≤ min (max x c) 1 ∧ min (max x c) 1 ≤ 1 :=
  ⟨le_min (le_max_right x c) h, min_le_right _ _⟩

lemma noSlipClamped_pos (v_sl v_sg : ℝ) : 0 < noSlipClamped v_sl v_sg :=
  lt_of_lt_of_le (by norm_num) (le_max_right _ _)

lemma noSlipClamped_le_one (v_sl v_sg : ℝ) : noSlipClamped v_sl v_sg ≤ 1 :=
  max_le (min_le_right _ _) (by norm_num)

lemma boundaries_noSlipClamped (v_sl v_sg : ℝ) :
    boundaries (noSlipClamped v_sl v_sg) = some
      (316 * noSlipClamped v_sl v_sg ^ (0.302 : ℝ),
       0.0009252 * noSlipClamped v_sl v_sg ^ (-2.4684 : ℝ),
       0.1 * noSlipClamped v_sl v_sg ^ (-1.4516 : ℝ),
       0.5 * noSlipClamped v_sl v_sg ^ (-6.738 : ℝ)) := by
  unfold boundaries
  rw [if_pos ⟨noSlipClamped_pos v_sl v_sg, noSlipClamped_le_one v_sl v_sg⟩]

lemma froude_pos {v_sl v_sg d_ft : ℝ} (hd : 0 < d_ft) (h3 : 0 < v_sl + v_sg) :
    0 < froude v_sl v_sg d_ft :=
  div_pos (pow_pos h3 2) (mul_pos gGrav_pos hd)

lemma transitionBlend_mem {c_l fr n_lv theta_deg L2 L3 : ℝ} (h : c_l ≤ 1) :
    c_l ≤ transitionBlend c_l fr n_lv theta_deg L2 L3 ∧
      transitionBlend c_l fr n_lv theta_deg L2 L3 ≤ 1 := by
  unfold transitionBlend
  exact clamp_mem h

lemma flowRegime_some {v_sl v_sg d_ft : ℝ} (hd : 0 < d_ft) (h1 : 0 ≤ v_sl)
    (h2 : 0 ≤ v_sg) (h3 : 0 < v_sl + v_sg) :
    flowRegime v_sl v_sg d_ft = some
      (specRegime (noSlipClamped v_sl v_sg) (froude v_sl v_sg d_ft)
        (316 * noSlipClamped v_sl v_sg ^ (0.302 : ℝ))
        (0.0009252 * noSlipClamped v_sl v_sg ^ (-2.4684 : ℝ))
        (0.1 * noSlipClamped v_sl v_sg ^ (-1.4516 : ℝ))
        (0.5 * noSlipClamped v_sl v_sg ^ (-6.738 : ℝ)),
       noSlipClamped v_sl v_sg, froude v_sl v_sg d_ft) := by
  unfold flowRegime
  rw [if_neg (not_le.mpr hd),
    if_neg (not_or.mpr ⟨not_lt.mpr h1, not_lt.mpr h2⟩),
    if_neg (not_le.mpr h3), boundaries_noSlipClamped]
  rfl

lemma liquidHoldup_bounds {v_sl v_sg d_ft theta_deg rho_l sigma : ℝ}
    (hd : 0 < d_ft) (h1 : 0 ≤ v_sl) (h2 : 0 ≤ v_sg) (h3 : 0 < v_sl + v_sg)
    (hrho : 0 < rho_l) (hsig : 0 < sigma) :
    ∃ h r, liquidHoldup v_sl v_sg d_ft theta_deg rho_l sigma = some (h, r) ∧
      noSlipClamped v_sl v_sg ≤ h ∧ h ≤ 1 := by
  unfold liquidHoldup
  rw [if_neg (not_le.mpr hrho), if_neg (not_le.mpr hsig),
    flowRegime_some hd h1 h2 h3]
  have hfr : ¬ froude v_sl v_sg d_ft ≤ 0 := not_le.mpr (froude_pos hd h3)
  dsimp only
  rw [show holdupHorizontal (noSlipClamped v_sl v_sg) (froude v_sl v_sg d_ft)
      (specRegime (noSlipClamped v_sl v_sg) (froude v_sl v_sg d_ft)
        (316 * noSlipClamped v_sl v_sg ^ (0.302 : ℝ))
        (0.0009252 * noSlipClamped v_sl v_sg ^ (-2.4684 : ℝ))
        (0.1 * noSlipClamped v_sl v_sg ^ (-1.4516 : ℝ))
        (0.5 * noSlipClamped v_sl v_sg ^ (-6.738 : ℝ))) =
      some (holdupHorizontal0 (noSlipClamped v_sl v_sg) (froude v_sl v_sg d_ft)
        (specRegime (noSlipClamped v_sl v_sg) (froude v_sl v_sg d_ft)
          (316 * noSlipClamped v_sl v_sg ^ (0.302 : ℝ))
          (0.0009252 * noSlipClamped v_sl v_sg ^ (-2.4684 : ℝ))
          (0.1 * noSlipClamped v_sl v_sg ^ (-1.4516 : ℝ))
          (0.5 * noSlipClamped v_sl v_sg ^ (-6.738 : ℝ)))) from by
    unfold holdupHorizontal; rw [if_neg hfr]]
  dsimp only
  by_cases hr : specRegime (noSlipClamped v_sl v_sg) (froude v_sl v_sg d_ft)
      (316 * noSlipClamped v_sl v_sg ^ (0.302 : ℝ))
      (0.0009252 * noSlipClamped v_sl v_sg ^ (-2.4684 : ℝ))
      (0.1 * noSlipClamped v_sl v_sg ^ (-1.4516 : ℝ))
      (0.5 * noSlipClamped v_sl v_sg ^ (-6.738 : ℝ)) = FlowRegime.transition
  · rw [if_neg (not_not.mpr hr), boundaries_noSlipClamped]
    dsimp only
    exact ⟨_, _, rfl,
      (transitionBlend_mem (noSlipClamped_le_one v_sl v_sg)).1,
      (transitionBlend_mem (noSlipClamped_le_one v_sl v_sg)).2⟩
  · rw [if_pos hr]
    exact ⟨_, _, rfl,
      (clamp_mem (noSlipClamped_le_one v_sl v_sg)).1,
      (clamp_mem (noSlipClamped_le_one v_sl v_sg)).2⟩

lemma darcyBB_some {re : ℝ} (rr : ℝ) (h : 0 < re) :
    ∃ f, darcyBB re rr = some f := by
  unfold darcyBB
  rw [if_neg (not_le.mpr h)]
  by_cases h2 : re < 2000
  · rw [if_pos h2]; exact ⟨_, rfl⟩
  · rw [if_neg h2]; exact ⟨_, rfl⟩

lemma bbGradient_eq {v_sl v_sg d_in theta_deg rho_l rho_g mu_l mu_g sigma eps_in : ℝ}
    {p : Option ℝ} {h : ℝ} {r : FlowRegime} {fns : ℝ}
    (hd : 0 < d_in) (hrl : 0 < rho_l) (hrg : 0 < rho_g)
    (hml : 0 < mu_l) (hmg : 0 < mu_g)
    (h1 : 0 ≤ v_sl) (h2 : 0 ≤ v_sg) (hp : ¬ pInvalid p) (h3 : 0 < v_sl + v_sg)
    (hhold : liquidHoldup v_sl v_sg (d_in / 12) theta_deg rho_l sigma = some (h, r))
    (hfns : darcyBB
      ((rho_l * (v_sl / (v_sl + v_sg)) + rho_g * (1 - v_sl / (v_sl + v_sg))) *
        (v_sl + v_sg) * (d_in / 12) /
        (cpToLbmFtS mu_l * (v_sl / (v_sl + v_sg)) +
          cpToLbmFtS mu_g * (1 - v_sl / (v_sl + v_sg))))
      ((eps_in / 12) / (d_in / 12)) = some fns) :
    bbGradient v_sl v_sg d_in theta_deg rho_l rho_g mu_l mu_g sigma eps_in p =
      some ⟨(2 * (fns * Real.exp (sCorr (v_sl / (v_sl + v_sg) / h ^ (2 : ℕ)))) *
               (v_sl + v_sg) ^ (2 : ℕ) *
               (rho_l * (v_sl / (v_sl + v_sg)) + rho_g * (1 - v_sl / (v_sl + v_sg))) /
               (144 * gGrav * (d_in / 12)) +
             (rho_l * h + rho_g * (1 - h)) * Real.sin (radians theta_deg) / 144) /
            (1 - ekClamp (ekRaw p (rho_l * h + rho_g * (1 - h)) (v_sl + v_sg) v_sg)),
            h, r,
            fns * Real.exp (sCorr (v_sl / (v_sl + v_sg) / h ^ (2 : ℕ))),
            rho_l * h + rho_g * (1 - h),
            rho_l * (v_sl / (v_sl + v_sg)) + rho_g * (1 - v_sl / (v_sl + v_sg)),
            (rho_l * (v_sl / (v_sl + v_sg)) + rho_g * (1 - v_sl / (v_sl + v_sg))) *
              (v_sl + v_sg) * (d_in / 12) /
              (cpToLbmFtS mu_l * (v_sl / (v_sl + v_sg)) +
                cpToLbmFtS mu_g * (1 - v_sl / (v_sl + v_sg)))⟩ := by
  unfold bbGradient
  rw [if_neg (not_le.mpr hd),
    if_neg (not_or.mpr ⟨not_le.mpr hrl, not_le.mpr hrg⟩),
    if_neg (not_or.mpr ⟨not_le.mpr hml, not_le.mpr hmg⟩),
    if_neg (not_or.mpr ⟨not_lt.mpr h1, not_lt.mpr h2⟩),
    if_neg hp, if_neg (not_le.mpr h3), hhold]
  dsimp only
  rw [hfns]

/-- Claim C2: `beggs_brill_flow_regime` errors exactly when the diameter is
non-positive, a superficial velocity is negative, or the mixture velocity is
zero; on valid inputs it returns the regime determined solely from the
clamped no-slip fraction and the Froude number `v_m²/(g·d)` through the
four power-law boundaries, ties resolving to the first matching clause in
the order segregated → transition → intermittent → distributed. -/
theorem bb_flow_regime_classification (v_sl v_sg d_ft : ℝ) :
    (flowRegime v_sl v_sg d_ft = none ↔
      d_ft ≤ 0 ∨ v_sl < 0 ∨ v_sg < 0 ∨ v_sl + v_sg = 0)
    ∧ (0 < d_ft → 0 ≤ v_sl → 0 ≤ v_sg → 0 < v_sl + v_sg →
       flowRegime v_sl v_sg d_ft = some
        (specRegime (noSlipClamped v_sl v_sg) (froude v_sl v_sg d_ft)
          (316 * noSlipClamped v_sl v_sg ^ (0.302 : ℝ))
          (0.0009252 * noSlipClamped v_sl v_sg ^ (-2.4684 : ℝ))
          (0.1 * noSlipClamped v_sl v_sg ^ (-1.4516 : ℝ))
          (0.5 * noSlipClamped v_sl v_sg ^ (-6.738 : ℝ)),
         noSlipClamped v_sl v_sg, froude v_sl v_sg d_ft)) := by
  constructor
  · constructor
    · intro hnone
      by_contra hcon
      push_neg at hcon
      obtain ⟨hd, hv1, hv2, hsum⟩ := hcon
      have hsum' : 0 < v_sl + v_sg :=
        lt_of_le_of_ne (add_nonneg hv1 hv2) (Ne.symm hsum)
      rw [flowRegime_some hd hv1 hv2 hsum'] at hnone
      exact Option.noConfusion hnone
    · intro hcase
      rcases hcase with h | h | h | h
      · unfold flowRegime; rw [if_pos h]
      · unfold flowRegime
        by_cases hd : d_ft ≤ 0
        · rw [if_pos hd]
        · rw [if_neg hd, if_pos (Or.inl h)]
      · unfold flowRegime
        by_cases hd : d_ft ≤ 0
        · rw [if_pos hd]
        · rw [if_neg hd, if_pos (Or.inr h)]
      · unfold flowRegime
        by_cases hd : d_ft ≤ 0
        · rw [if_pos hd]
        · rw [if_neg hd]
          by_cases hv : v_sl < 0 ∨ v_sg < 0
          · rw [if_pos hv]
          · rw [if_neg hv, if_pos (le_of_eq h)]
  · exact fun hd h1 h2 h3 => flowRegime_some hd h1 h2 h3

/-- Claim C3: on every valid input the holdup returned by
`beggs_brill_liquid_holdup` lies between the clamped no-slip liquid
fraction and 1, in every regime (the transition blend included). -/
theorem bb_holdup_in_unit_range (v_sl v_sg d_ft theta_deg rho_l sigma : ℝ)
    (hd : 0 < d_ft) (h1 : 0 ≤ v_sl) (h2 : 0 ≤ v_sg) (h3 : 0 < v_sl + v_sg)
    (hrho : 0 < rho_l) (hsig : 0 < sigma) :
    ∃ h r, liquidHoldup v_sl v_sg d_ft theta_deg rho_l sigma = some (h, r) ∧
      noSlipClamped v_sl v_sg ≤ h ∧ h ≤ 1 :=
  liquidHoldup_bounds hd h1 h2 h3 hrho hsig

/-- Witness for C3 at the spec's end-to-end scenario
(`v_sl=2, v_sg=3 ft/s`, `d=3 in = 1/4 ft`, `θ=30°`, `ρ_l=55`, `σ=30`). -/
theorem bb_holdup_in_unit_range_witness :
    ∃ h r, liquidHoldup 2 3 (1/4) 30 55 30 = some (h, r) ∧
      noSlipClamped 2 3 ≤ h ∧ h ≤ 1 :=
  bb_holdup_in_unit_range 2 3 (1/4) 30 55 30 (by norm_num) (by norm_num)
    (by norm_num) (by norm_num) (by norm_num) (by norm_num)

/-- Claim C5: the transition-regime holdup is the clamp-free linear blend
`A·el_seg + (1-A)·el_int` of the two fully computed branch holdups with
`A = clamp((L3-Fr)/(L3-L2), 0, 1)`, and the blend is continuous at the
boundaries: it equals the segregated-only holdup at `Fr = L2` and the
intermittent-only holdup at `Fr = L3`. -/
theorem bb_transition_blend_continuity (c_l fr n_lv theta_deg L1 L2 L3 L4 : ℝ)
    (hb : boundaries c_l = some (L1, L2, L3, L4)) (hL : L2 < L3) :
    transitionBlend c_l fr n_lv theta_deg L2 L3 =
      transitionWeight fr L2 L3 * elBranch c_l fr n_lv theta_deg FlowRegime.segregated +
        (1 - transitionWeight fr L2 L3) *
          elBranch c_l fr n_lv theta_deg FlowRegime.intermittent
    ∧ (fr = L2 → transitionBlend c_l fr n_lv theta_deg L2 L3 =
        elBranch c_l fr n_lv theta_deg FlowRegime.segregated)
    ∧ (fr = L3 → transitionBlend c_l fr n_lv theta_deg L2 L3 =
        elBranch c_l fr n_lv theta_deg FlowRegime.intermittent) := by
  have hcl : 0 < c_l ∧ c_l ≤ 1 := by
    by_cases h : 0 < c_l ∧ c_l ≤ 1
    · exact h
    · unfold boundaries at hb; rw [if_neg h] at hb; cases hb
  have hA0 : 0 ≤ transitionWeight fr L2 L3 :=
    le_min (le_max_right _ _) zero_le_one
  have hA1 : transitionWeight fr L2 L3 ≤ 1 := min_le_right _ _
  have hseg : c_l ≤ elBranch c_l fr n_lv theta_deg FlowRegime.segregated ∧
      elBranch c_l fr n_lv theta_deg FlowRegime.segregated ≤ 1 := by
    unfold elBranch; exact clamp_mem hcl.2
  have hint : c_l ≤ elBranch c_l fr n_lv theta_deg FlowRegime.intermittent ∧
      elBranch c_l fr n_lv theta_deg FlowRegime.intermittent ≤ 1 := by
    unfold elBranch; exact clamp_mem hcl.2
  have hlo : c_l ≤ transitionWeight fr L2 L3 *
      elBranch c_l fr n_lv theta_deg FlowRegime.segregated +
      (1 - transitionWeight fr L2 L3) *
        elBranch c_l fr n_lv theta_deg FlowRegime.intermittent := by
    nlinarith [hA0, hA1, hseg.1, hseg.2, hint.1, hint.2]
  have hhi : transitionWeight fr L2 L3 *
      elBranch c_l fr n_lv theta_deg FlowRegime.segregated +
      (1 - transitionWeight fr L2 L3) *
        elBranch c_l fr n_lv theta_deg FlowRegime.intermittent ≤ 1 := by
    nlinarith [hA0, hA1, hseg.1, hseg.2, hint.1, hint.2]
  have hid : transitionBlend c_l fr n_lv theta_deg L2 L3 =
      transitionWeight fr L2 L3 *
        elBranch c_l fr n_lv theta_deg FlowRegime.segregated +
      (1 - transitionWeight fr L2 L3) *
        elBranch c_l fr n_lv theta_deg FlowRegime.intermittent := by
    unfold transitionBlend
    rw [max_eq_left hlo, min_eq_left hhi]
  refine ⟨hid, fun h2 => ?_, fun h3 => ?_⟩
  · have hw : transitionWeight fr L2 L3 = 1 := by
      unfold transitionWeight
      rw [h2, div_self (ne_of_gt (sub_pos.mpr hL))]
      norm_num
    rw [hid, hw]; ring
  · have hw : transitionWeight fr L2 L3 = 0 := by
      unfold transitionWeight
      rw [h3, sub_self, zero_div]
      norm_num
    rw [hid, hw]; ring

/-- Witness for C5 at `c_l = 1` (where the boundaries evaluate to
`(316, 0.0009252, 0.1, 0.5)`), taking `Fr = L2`. -/
theorem bb_transition_blend_continuity_witness :
    transitionBlend 1 0.0009252 0 0 0.0009252 0.1 =
      elBranch 1 0.0009252 0 0 FlowRegime.segregated := by
  have hbound : boundaries 1 = some (316, 0.0009252, 0.1, 0.5) := by
    unfold boundaries
    rw [if_pos ⟨one_pos, le_refl 1⟩]
    norm_num [Real.one_rpow]
  exact (bb_transition_blend_continuity 1 0.0009252 0 0 316 0.0009252 0.1 0.5
    hbound (by norm_num)).2.1 rfl

/-- Claim C6 (amended): for `v_sl, v_sg ≥ 0` with positive mixture velocity
and any tuning factor `k`, `hagedorn_brown_holdup` returns the no-slip
fraction inflated by `k·sqrt(gas/mixture ratio)`, floored at the no-slip
fraction and at `1e-6` and capped at `0.999999`; hence
`min(λ_l, 0.999999) ≤ h ≤ 0.999999` and `0 < h < 1`, and `λ_l ≤ h`
whenever `λ_l ≤ 0.999999` (the cap can cut below `λ_l` when
`λ_l > 0.999999`, so the claimed unconditional `λ_l ≤ h` fails). -/
theorem hb_holdup_bounds (v_sl v_sg k : ℝ) (h1 : 0 ≤ v_sl) (h2 : 0 ≤ v_sg)
    (h3 : 0 < v_sl + v_sg) :
    ∃ h, hbHoldup v_sl v_sg k = some h ∧
      min (v_sl / (v_sl + v_sg)) 0.999999 ≤ h ∧ h ≤ 0.999999 ∧
      0 < h ∧ h < 1 ∧
      (v_sl / (v_sl + v_sg) ≤ 0.999999 → v_sl / (v_sl + v_sg) ≤ h) := by
  unfold hbHoldup
  rw [if_neg (not_or.mpr ⟨not_lt.mpr h1, not_lt.mpr h2⟩), if_neg (not_le.mpr h3)]
  refine ⟨_, rfl, ?_, min_le_right _ _, ?_, ?_, ?_⟩
  · exact min_le_min (le_trans (le_max_right _ _) (le_max_left _ _)) (le_refl _)
  · exact lt_min (lt_of_lt_of_le (by norm_num) (le_max_right _ _)) (by norm_num)
  · exact lt_of_le_of_lt (min_le_right _ _) (by norm_num)
  · intro hlam
    calc v_sl / (v_sl + v_sg)
        = min (v_sl / (v_sl + v_sg)) 0.999999 := (min_eq_left hlam).symm
      _ ≤ _ := min_le_min (le_trans (le_max_right _ _) (le_max_left _ _)) (le_refl _)

/-- Witness for C6's amended bounds at `v_sl = 1, v_sg = 1, k = 0.15`. -/
theorem hb_holdup_bounds_witness :
    ∃ h, hbHoldup 1 1 0.15 = some h ∧
      min ((1 : ℝ) / (1 + 1)) 0.999999 ≤ h ∧ h ≤ 0.999999 ∧
      0 < h ∧ h < 1 ∧
      ((1 : ℝ) / (1 + 1) ≤ 0.999999 → (1 : ℝ) / (1 + 1) ≤ h) :=
  hb_holdup_bounds 1 1 0.15 (by norm_num) (by norm_num) (by norm_num)

/-- Counterexample to C6 as stated: at `v_sl = 10⁷, v_sg = 1` the no-slip
fraction exceeds the `0.999999` cap, so the returned holdup is `0.999999`,
strictly below `λ_l`. -/
theorem hb_holdup_cap_breaks_no_slip_floor :
    hbHoldup 10000000 1 0.15 = some 0.999999 ∧
      ¬ ((10000000 : ℝ) / (10000000 + 1) ≤ 0.999999) := by
  have hlam : (0.999999 : ℝ) ≤ 10000000 / (10000000 + 1) := by
    rw [le_div_iff₀ (by norm_num)]
    norm_num
  constructor
  · unfold hbHoldup
    rw [if_neg (by norm_num), if_neg (by norm_num)]
    dsimp only
    congr 1
    exact min_eq_right
      (le_trans hlam (le_trans (le_max_right _ _) (le_max_left _ _)))
  · rw [not_le, lt_div_iff₀ (by norm_num)]
    norm_num

/-- Claim C8: the Darcy friction-factor rule is the same in the Beggs–Brill
and Hagedorn–Brown modules — for `Re > 0` and relative roughness `≥ 0` both
return the laminar `64/Re` below `Re = 2000` and Swamee–Jain above, exactly
as the specification's formula; both error exactly when `Re ≤ 0`. -/
theorem darcy_friction_rule_shared (re rr : ℝ) :
    (0 ≤ rr → darcyBB re rr = darcyHB re rr ∧ darcyBB re rr = darcySpecRule re rr)
    ∧ (darcyBB re rr = none ↔ re ≤ 0)
    ∧ (darcyHB re rr = none ↔ re ≤ 0) := by
  refine ⟨fun hrr => ⟨?_, rfl⟩, ?_, ?_⟩
  · unfold darcyBB darcyHB
    rw [max_eq_left hrr]
  · unfold darcyBB
    by_cases h1 : re ≤ 0
    · rw [if_pos h1]; simp [h1]
    · rw [if_neg h1]
      by_cases h2 : re < 2000
      · rw [if_pos h2]; simp [h1]
      · rw [if_neg h2]; simp [h1]
  · unfold darcyHB
    by_cases h1 : re ≤ 0
    · rw [if_pos h1]; simp [h1]
    · rw [if_neg h1]
      by_cases h2 : re < 2000
      · rw [if_pos h2]; simp [h1]
      · rw [if_neg h2]; simp [h1]

/-- Claim C10: with both superficial velocities zero and otherwise valid
inputs, `hagedorn_brown_pressure_gradient` returns the hydrostatic-only
result (`ρ_l·sinθ/144`, holdup 1, mixture density `ρ_l`, `Re = 0`,
`f = 0`) without error, while `beggs_brill_pressure_gradient` rejects the
zero mixture velocity. -/
theorem hb_zero_flow_static (d_in theta_deg rho_l rho_g mu_l mu_g eps_in k sigma : ℝ)
    (hd : 0 < d_in) (hrl : 0 < rho_l) (hrg : 0 < rho_g) (hml : 0 < mu_l)
    (hmg : 0 < mu_g) (ht1 : -90 ≤ theta_deg) (ht2 : theta_deg ≤ 90) :
    hbGradient 0 0 d_in theta_deg rho_l rho_g mu_l mu_g eps_in k =
      some ⟨rho_l * Real.sin (radians theta_deg) / 144, 1, rho_l, 0, 0⟩
    ∧ bbGradient 0 0 d_in theta_deg rho_l rho_g mu_l mu_g sigma eps_in none = none := by
  constructor
  · unfold hbGradient
    rw [if_neg (not_le.mpr hd),
      if_neg (not_or.mpr ⟨not_le.mpr hrl, not_le.mpr hrg⟩),
      if_neg (not_or.mpr ⟨not_le.mpr hml, not_le.mpr hmg⟩),
      if_neg (not_or.mpr ⟨not_lt.mpr ht1, not_lt.mpr ht2⟩),
      if_neg (by norm_num : ¬((0:ℝ) < 0 ∨ (0:ℝ) < 0)),
      if_pos (by norm_num : (0:ℝ) + 0 ≤ 0), mul_one_div]
  · unfold bbGradient
    rw [if_neg (not_le.mpr hd),
      if_neg (not_or.mpr ⟨not_le.mpr hrl, not_le.mpr hrg⟩),
      if_neg (not_or.mpr ⟨not_le.mpr hml, not_le.mpr hmg⟩),
      if_neg (by norm_num : ¬((0:ℝ) < 0 ∨ (0:ℝ) < 0)),
      if_neg (by simp [pInvalid] : ¬ pInvalid (none : Option ℝ)),
      if_pos (by norm_num : (0:ℝ) + 0 ≤ 0)]

/-- Witness for C10 at `d = 2.992 in, θ = 90°, ρ_l = 55, ρ_g = 3,
μ_l = 1, μ_g = 0.02`. -/
theorem hb_zero_flow_static_witness :
    bbGradient 0 0 2.992 90 55 3 1 (2/100) 30 (6/10000) none = none :=
  (hb_zero_flow_static 2.992 90 55 3 1 (2/100) (6/10000) (15/100) 30
    (by norm_num) (by norm_num) (by norm_num) (by norm_num) (by norm_num)
    (by norm_num) (by norm_num)).2

/-- Claim C7: both outflow builders special-case a grid point with zero
liquid and zero associated gas rate to the wellhead pressure plus the
liquid-density hydrostatic column, bypassing the gradient model; every
other grid point is the wellhead pressure plus the gradient evaluated once
at that rate, multiplied by the full length (a single constant-gradient
segment). -/
theorem vlp_zero_flow_and_single_segment
    (q qg L rho_l mu_l d_in theta_deg p_wh rho_g mu_g sigma eps_in k : ℝ)
    (p : Option ℝ) (hq : 0 ≤ q) (hqg : 0 ≤ qg) :
    (q = 0 ∧ qg = 0 →
      vlpPointBB q qg L rho_l mu_l d_in theta_deg p_wh rho_g mu_g sigma eps_in p =
        some (p_wh + rho_l * Real.sin (radians theta_deg) / 144 * L) ∧
      vlpPointHB q qg L rho_l mu_l d_in theta_deg p_wh rho_g mu_g eps_in k =
        some (p_wh + rho_l * Real.sin (radians theta_deg) / 144 * L))
    ∧ (0 < q ∨ 0 < qg →
      vlpPointBB q qg L rho_l mu_l d_in theta_deg p_wh rho_g mu_g sigma eps_in p =
        Option.map (fun res => p_wh + res.dpdz * L)
          (bbGradient (q * STBtoFT3 / DAYtoS / pipeArea d_in)
            (qg * MSCFtoFT3 / DAYtoS / pipeArea d_in) d_in theta_deg rho_l
            rho_g mu_l mu_g sigma eps_in p) ∧
      vlpPointHB q qg L rho_l mu_l d_in theta_deg p_wh rho_g mu_g eps_in k =
        Option.map (fun res => p_wh + res.dpdz * L)
          (hbGradient (q * STBtoFT3 / DAYtoS / pipeArea d_in)
            (qg * MSCFtoFT3 / DAYtoS / pipeArea d_in) d_in theta_deg rho_l
            rho_g mu_l mu_g eps_in k)) := by
  constructor
  · rintro ⟨rfl, rfl⟩
    constructor
    · unfold vlpPointBB
      rw [if_pos (by norm_num [STBtoFT3, MSCFtoFT3, DAYtoS])]
    · unfold vlpPointHB
      rw [if_pos (by norm_num [STBtoFT3, MSCFtoFT3, DAYtoS])]
  · intro hpos
    have hcond : ¬ (q * STBtoFT3 / DAYtoS ≤ 0 ∧ qg * MSCFtoFT3 / DAYtoS ≤ 0) := by
      rintro ⟨hc1, hc2⟩
      rcases hpos with h | h
      · exact absurd hc1 (not_le.mpr (div_pos
          (mul_pos h (by norm_num [STBtoFT3])) (by norm_num [DAYtoS])))
      · exact absurd hc2 (not_le.mpr (div_pos
          (mul_pos h (by norm_num [MSCFtoFT3])) (by norm_num [DAYtoS])))
    constructor
    · unfold vlpPointBB
      rw [if_neg hcond]
      cases hg : bbGradient (q * STBtoFT3 / DAYtoS / pipeArea d_in)
          (qg * MSCFtoFT3 / DAYtoS / pipeArea d_in) d_in theta_deg rho_l
          rho_g mu_l mu_g sigma eps_in p <;> rfl
    · unfold vlpPointHB
      rw [if_neg hcond]
      cases hg : hbGradient (q * STBtoFT3 / DAYtoS / pipeArea d_in)
          (qg * MSCFtoFT3 / DAYtoS / pipeArea d_in) d_in theta_deg rho_l
          rho_g mu_l mu_g eps_in k <;> rfl

/-- Witness for C7 at the zero-rate grid point of an 8000 ft vertical well
(`ρ_l = 60, μ_l = 1, d = 2.992 in, p_wh = 0`). -/
theorem vlp_zero_flow_and_single_segment_witness :
    vlpPointBB 0 0 8000 60 1 2.992 90 0 2 (2/100) 30 (6/10000) none =
      some (0 + 60 * Real.sin (radians 90) / 144 * 8000) ∧
    vlpPointHB 0 0 8000 60 1 2.992 90 0 2 (2/100) (6/10000) (15/100) =
      some (0 + 60 * Real.sin (radians 90) / 144 * 8000) :=
  (vlp_zero_flow_and_single_segment 0 0 8000 60 1 2.992 90 0 2 (2/100) 30
    (6/10000) (15/100) none (le_refl 0) (le_refl 0)).1 ⟨rfl, rfl⟩

/-- Positivity of a two-phase convex average of two positive properties. -/
lemma convex_avg_pos {a b c : ℝ} (ha : 0 < a) (hb : 0 < b) (h0 : 0 ≤ c)
    (h1 : c ≤ 1) : 0 < a * c + b * (1 - c) := by
  rcases le_total b a with hab | hab
  · nlinarith [mul_nonneg (sub_nonneg.mpr hab) h0]
  · nlinarith [mul_nonneg (sub_nonneg.mpr hab) (sub_nonneg.mpr h1)]

/-- Claim C4 (amended): on valid inputs the Beggs–Brill total gradient is
`(friction + hydrostatic)/(1 - E_k)` with hydrostatic `ρ_m·sinθ/144`, but
the friction component the code uses is `2·f_tp·v_m²·ρ_ns/(144·g_c·d_ft)`,
which is four times the standard Darcy–Weisbach value
`f_tp·ρ_ns·v_m²/(2·g_c·d_ft)/144`. -/
theorem bb_gradient_decomposition
    (v_sl v_sg d_in theta_deg rho_l rho_g mu_l mu_g sigma eps_in : ℝ)
    (p : Option ℝ) (hd : 0 < d_in) (hrl : 0 < rho_l) (hrg : 0 < rho_g)
    (hml : 0 < mu_l) (hmg : 0 < mu_g) (hsig : 0 < sigma)
    (h1 : 0 ≤ v_sl) (h2 : 0 ≤ v_sg) (h3 : 0 < v_sl + v_sg)
    (hp : ¬ pInvalid p) :
    ∃ res, bbGradient v_sl v_sg d_in theta_deg rho_l rho_g mu_l mu_g sigma
        eps_in p = some res ∧
      res.dpdz = (2 * res.ftp * (v_sl + v_sg) ^ (2 : ℕ) * res.rhoNs /
          (144 * gGrav * (d_in / 12)) +
          res.rhoM * Real.sin (radians theta_deg) / 144) /
        (1 - ekClamp (ekRaw p res.rhoM (v_sl + v_sg) v_sg)) ∧
      2 * res.ftp * (v_sl + v_sg) ^ (2 : ℕ) * res.rhoNs /
          (144 * gGrav * (d_in / 12)) =
        4 * (res.ftp * res.rhoNs * (v_sl + v_sg) ^ (2 : ℕ) /
          (2 * gGrav * (d_in / 12)) / 144) := by
  obtain ⟨h, r, hhold, hlo, hhi⟩ := liquidHoldup_bounds
    (show (0 : ℝ) < d_in / 12 by positivity) h1 h2 h3 hrl hsig
  have hcl0 : 0 ≤ v_sl / (v_sl + v_sg) := div_nonneg h1 h3.le
  have hcl1 : v_sl / (v_sl + v_sg) ≤ 1 :=
    (div_le_one h3).mpr (le_add_of_nonneg_right h2)
  have hrhoNs : 0 < rho_l * (v_sl / (v_sl + v_sg)) +
      rho_g * (1 - v_sl / (v_sl + v_sg)) := convex_avg_pos hrl hrg hcl0 hcl1
  have hmuNs : 0 < cpToLbmFtS mu_l * (v_sl / (v_sl + v_sg)) +
      cpToLbmFtS mu_g * (1 - v_sl / (v_sl + v_sg)) :=
    convex_avg_pos (by unfold cpToLbmFtS; positivity)
      (by unfold cpToLbmFtS; positivity) hcl0 hcl1
  have hre : 0 < (rho_l * (v_sl / (v_sl + v_sg)) +
      rho_g * (1 - v_sl / (v_sl + v_sg))) * (v_sl + v_sg) * (d_in / 12) /
      (cpToLbmFtS mu_l * (v_sl / (v_sl + v_sg)) +
        cpToLbmFtS mu_g * (1 - v_sl / (v_sl + v_sg))) :=
    div_pos (mul_pos (mul_pos hrhoNs h3) (by positivity)) hmuNs
  obtain ⟨fns, hfns⟩ := darcyBB_some ((eps_in / 12) / (d_in / 12)) hre
  exact ⟨_, bbGradient_eq hd hrl hrg hml hmg h1 h2 hp h3 hhold hfns, rfl,
    by ring⟩

/-- Witness for C4's amended decomposition at the spec's end-to-end
scenario with `θ = 60°`. -/
theorem bb_gradient_decomposition_witness :
    ∃ res, bbGradient 2 3 2.992 60 55 3 1 (2/100) 30 (6/10000) none =
      some res := by
  obtain ⟨res, hres, -, -⟩ := bb_gradient_decomposition 2 3 2.992 60 55 3 1
    (2/100) 30 (6/10000) none (by norm_num) (by norm_num) (by norm_num)
    (by norm_num) (by norm_num) (by norm_num) (by norm_num) (by norm_num)
    (by norm_num) (by simp [pInvalid])
  exact ⟨res, hres⟩

/-- Counterexample to C4 as stated: at
`v_sl = v_sg = 1 ft/s, d = 12 in, θ = 0, ρ_l = 50, ρ_g = 2, μ_l = 1000 cP`
the flow is laminar, the friction factor is positive, and the code's total
gradient differs from the claimed
`(f_tp·ρ_ns·v_m²/(2·g_c·d_ft)/144 + hydrostatic)/(1 - E_k)` (it is four
times the claimed friction value). -/
theorem bb_friction_not_standard_darcy_weisbach :
    ∃ res, bbGradient 1 1 12 0 50 2 1000 (2/100) 30 0 none = some res ∧
      res.dpdz ≠
        (res.ftp * res.rhoNs * ((1 : ℝ) + 1) ^ (2 : ℕ) /
            (2 * gGrav * (12 / 12)) / 144 +
          res.rhoM * Real.sin (radians 0) / 144) /
        (1 - ekClamp (ekRaw none res.rhoM ((1 : ℝ) + 1) 1)) := by
  obtain ⟨h, r, hhold, hlo, hhi⟩ := liquidHoldup_bounds
    (show (0 : ℝ) < 12 / 12 by norm_num) (show (0:ℝ) ≤ 1 by norm_num)
    (show (0:ℝ) ≤ 1 by norm_num) (show (0:ℝ) < 1 + 1 by norm_num)
    (show (0:ℝ) < 50 by norm_num) (show (0:ℝ) < 30 by norm_num)
  have hE0 : 0 < (50 * ((1:ℝ) / (1 + 1)) + 2 * (1 - 1 / (1 + 1))) * (1 + 1) *
      (12 / 12) / (cpToLbmFtS 1000 * (1 / (1 + 1)) +
        cpToLbmFtS (2/100) * (1 - 1 / (1 + 1))) := by
    norm_num [cpToLbmFtS]
  have hE2000 : (50 * ((1:ℝ) / (1 + 1)) + 2 * (1 - 1 / (1 + 1))) * (1 + 1) *
      (12 / 12) / (cpToLbmFtS 1000 * (1 / (1 + 1)) +
        cpToLbmFtS (2/100) * (1 - 1 / (1 + 1))) < 2000 := by
    rw [div_lt_iff₀ (by norm_num [cpToLbmFtS])]
    norm_num [cpToLbmFtS]
  have hfns : darcyBB ((50 * ((1:ℝ) / (1 + 1)) + 2 * (1 - 1 / (1 + 1))) *
      (1 + 1) * (12 / 12) / (cpToLbmFtS 1000 * (1 / (1 + 1)) +
        cpToLbmFtS (2/100) * (1 - 1 / (1 + 1))))
      (((0:ℝ) / 12) / (12 / 12)) =
      some (64 / ((50 * ((1:ℝ) / (1 + 1)) + 2 * (1 - 1 / (1 + 1))) *
        (1 + 1) * (12 / 12) / (cpToLbmFtS 1000 * (1 / (1 + 1)) +
          cpToLbmFtS (2/100) * (1 - 1 / (1 + 1))))) := by
    unfold darcyBB
    rw [if_neg (not_le.mpr hE0), if_pos hE2000]
  have hres := bbGradient_eq (p := (none : Option ℝ))
    (show (0:ℝ) < 12 by norm_num) (show (0:ℝ) < 50 by norm_num)
    (show (0:ℝ) < 2 by norm_num) (show (0:ℝ) < 1000 by norm_num)
    (show (0:ℝ) < 2/100 by norm_num) (show (0:ℝ) ≤ 1 by norm_num)
    (show (0:ℝ) ≤ 1 by norm_num) (by simp [pInvalid])
    (show (0:ℝ) < 1 + 1 by norm_num) hhold hfns
  refine ⟨_, hres, ?_⟩
  have hsin : Real.sin (radians 0) = 0 := by
    rw [show radians 0 = 0 by unfold radians; ring, Real.sin_zero]
  dsimp only
  rw [hsin]
  simp only [ekRaw]
  norm_num [ekClamp]
  apply ne_of_gt
  have hX : 0 < 64 / (52 / (cpToLbmFtS 1000 * (1 / 2) +
      cpToLbmFtS (1 / 50) * (1 / 2))) * Real.exp (sCorr (1 / 2 / h ^ (2 : ℕ))) :=
    mul_pos (by norm_num [cpToLbmFtS]) (Real.exp_pos _)
  have hg2 : (0 : ℝ) < 2 * gGrav * 144 := by nlinarith [gGrav_pos]
  have hg3 : (0 : ℝ) < 144 * gGrav := by nlinarith [gGrav_pos]
  rw [div_div, div_lt_div_iff₀ hg2 hg3]
  nlinarith [mul_pos hX gGrav_pos]

end Petrokit
